import Mathlib

/-!
Verification of `src/C/FQuake3/main.c` from TIHan/Quake-III-Arena (FQuake3 launcher).

The program is a linear launcher: it parses two string options with GLib
(`--mono-lib`, `--mono-etc`, defaults `Mono\lib` / `Mono\etc`), creates a Mono
domain, loads five assemblies in a fixed order, executes `Launcher.exe` with the
rewritten argument vector, frees the domain and the option context, and exits.

We embed it as a pure function from the argument vector (excluding the program
name) to a trace of external calls plus the exit status.  The domain handle
returned by `m_domain_new` is environment-chosen, so `launch` is parameterized
over it.  The GLib option parser is external library code; it is modelled from
the spec (see `parseOptions`).
-/

namespace FQuake3

/-- Default of the global `mono_lib` (main.c line 3). -/
def mono_lib : String := "Mono\\lib"

/-- Default of the global `mono_etc` (main.c line 4). -/
def mono_etc : String := "Mono\\etc"

/-- The five assembly names loaded by `main`, in source order (main.c lines 36-47). -/
def assemblyLoadOrder : List String :=
  ["FSharp.Core.dll", "FQuake3.Utils.dll", "Engine.dll", "Engine.Renderer.dll", "CGame.dll"]

/-- If `ps` is an initial segment of `bs`, return the remainder. -/
def splitChars : List Char → List Char → Option (List Char)
  | [], bs => some bs
  | _ :: _, [] => none
  | p :: ps, b :: bs => if p = b then splitChars ps bs else none

/-- If string `p` is an initial segment of `a`, return the remainder of `a`. -/
def matchOpt (p a : String) : Option String :=
  (splitChars p.data a.data).map String.mk

/-- Whether an argument looks like an option (starts with a dash and is not just "-"). -/
def isDashOpt (a : String) : Bool :=
  match a.data with
  | '-' :: _ :: _ => true
  | _ => false

/-- Whether an argument would set `mono_lib` in the parser. -/
def setsMonoLib (a : String) : Bool :=
  a = "--mono-lib" || (matchOpt "--mono-lib=" a).isSome

/-- Whether an argument would set `mono_etc` in the parser. -/
def setsMonoEtc (a : String) : Bool :=
  a = "--mono-etc" || (matchOpt "--mono-etc=" a).isSome

/-- Modelled from the spec: `g_option_context_parse` (GLib, external to this
repository) applied to the two `option_entries` of main.c lines 6-11.  Per the
spec it recognizes the string options `--mono-lib` and `--mono-etc` (each also in
`--opt=value` form), consumes them and their values from the argument vector,
fails on any unrecognized or malformed option, and leaves positional arguments
in place.  `parseOptions args lib etc` returns the final `(lib, etc, remaining)`
triple or the error message. -/
def parseOptions : List String → String → String → Except String (String × String × List String)
  | [], lib, etc => .ok (lib, etc, [])
  | a :: rest, lib, etc =>
    if hl : (matchOpt "--mono-lib=" a).isSome then
      parseOptions rest ((matchOpt "--mono-lib=" a).get hl) etc
    else if he : (matchOpt "--mono-etc=" a).isSome then
      parseOptions rest lib ((matchOpt "--mono-etc=" a).get he)
    else if a = "--mono-lib" then
      match rest with
      | [] => .error "Missing argument for --mono-lib"
      | v :: rest2 => parseOptions rest2 v etc
    else if a = "--mono-etc" then
      match rest with
      | [] => .error "Missing argument for --mono-etc"
      | v :: rest2 => parseOptions rest2 lib v
    else if isDashOpt a then
      .error ("Unknown option " ++ a)
    else
      (parseOptions rest lib etc).map fun r => (r.1, r.2.1, a :: r.2.2)

/-- The option parse performed by `main` (main.c line 27), starting from the
defaults of the globals `mono_lib` / `mono_etc`. -/
def parseResult (args : List String) : Except String (String × String × List String) :=
  parseOptions args mono_lib mono_etc

/-- Whether `main`'s option parse succeeds on the given arguments. -/
def parseOk (args : List String) : Bool :=
  match parseResult args with
  | .ok _ => true
  | .error _ => false

/-- One external call made by `main`, with its arguments.  `m_domain_exec` and
`m_domain_free` carry the domain handle that `m_domain_new` returned. -/
inductive Event where
  | m_domain_new (lib etc entry : String)
  | m_load_assembly (name : String)
  | m_domain_exec (domain : Nat) (entry : String) (args : List String)
  | m_domain_free (domain : Nat)
  | g_option_context_free
  | g_print (msg : String)
deriving DecidableEq, Repr

/-- The launcher `main` (main.c lines 18-59) as a trace semantics: given the
handle the environment returns from `m_domain_new` and the argument vector
(excluding the program name), produce the sequence of external calls and the
exit status. -/
def launch (domainHandle : Nat) (args : List String) : List Event × Nat :=
  match parseResult args with
  | .error msg =>
    ([Event.g_print ("Invalid option: " ++ msg ++ "\n")], 1)
  | .ok (lib, etc, rest) =>
    ([Event.m_domain_new lib etc "Launcher.exe",
      Event.m_load_assembly "FSharp.Core.dll",
      Event.m_load_assembly "FQuake3.Utils.dll",
      Event.m_load_assembly "Engine.dll",
      Event.m_load_assembly "Engine.Renderer.dll",
      Event.m_load_assembly "CGame.dll",
      Event.m_domain_exec domainHandle "Launcher.exe" rest,
      Event.m_domain_free domainHandle,
      Event.g_option_context_free], 0)

/-- The assembly names passed to `m_load_assembly` calls in a trace, in order. -/
def loadCalls (t : List Event) : List String :=
  t.filterMap fun e =>
    match e with
    | Event.m_load_assembly n => some n
    | _ => none

/-- Whether an event is an `m_domain_free` call. -/
def isDomainFree : Event → Bool
  | Event.m_domain_free _ => true
  | _ => false

/-- Whether an event is an `m_domain_new` call. -/
def isDomainNew : Event → Bool
  | Event.m_domain_new _ _ _ => true
  | _ => false

/-- Whether an event is a `g_option_context_free` call. -/
def isCtxFree : Event → Bool
  | Event.g_option_context_free => true
  | _ => false

/-- Everything printed to standard output in a trace, concatenated. -/
def printed (t : List Event) : String :=
  String.join (t.filterMap fun e =>
    match e with
    | Event.g_print m => some m
    | _ => none)

/-- `s` contains `sub` as a (contiguous) substring. -/
def containsText (s sub : String) : Prop :=
  ∃ pre post : List Char, s.data = pre ++ sub.data ++ post

theorem launch_error {args : List String} {msg : String}
    (hp : parseResult args = .error msg) (h : Nat) :
    launch h args = ([Event.g_print ("Invalid option: " ++ msg ++ "\n")], 1) := by
  unfold launch
  rw [hp]

theorem launch_ok {args : List String} {lib etc rest} (h : Nat)
    (hp : parseResult args = .ok (lib, etc, rest)) :
    launch h args =
      ([Event.m_domain_new lib etc "Launcher.exe",
        Event.m_load_assembly "FSharp.Core.dll",
        Event.m_load_assembly "FQuake3.Utils.dll",
        Event.m_load_assembly "Engine.dll",
        Event.m_load_assembly "Engine.Renderer.dll",
        Event.m_load_assembly "CGame.dll",
        Event.m_domain_exec h "Launcher.exe" rest,
        Event.m_domain_free h,
        Event.g_option_context_free], 0) := by
  unfold launch
  rw [hp]

theorem parseOk_of_error {args : List String} {msg : String}
    (hp : parseResult args = .error msg) : parseOk args = false := by
  unfold parseOk
  rw [hp]

theorem parseOk_of_ok {args : List String} {r} (hp : parseResult args = .ok r) :
    parseOk args = true := by
  unfold parseOk
  rw [hp]

theorem exists_ok_of_parseOk {args : List String} (h : parseOk args = true) :
    ∃ lib etc rest, parseResult args = .ok (lib, etc, rest) := by
  unfold parseOk at h
  cases hp : parseResult args with
  | ok r =>
    obtain ⟨lib, etc, rest⟩ := r
    exact ⟨lib, etc, rest, rfl⟩
  | error m =>
    rw [hp] at h
    cases h

end FQuake3

namespace FQuake3

/-- C1: for every invocation whose option parsing succeeds, exactly five
assembly-load calls are made, in the fixed order FSharp.Core.dll,
FQuake3.Utils.dll, Engine.dll, Engine.Renderer.dll, CGame.dll, all after the
domain-creation call and before the entry-module execution call. -/
theorem loads_in_order_after_domain_new (h : Nat) (args : List String)
    (hp : parseOk args = true) :
    loadCalls (launch h args).1 = assemblyLoadOrder ∧
    ∃ lib etc rest,
      (launch h args).1 =
        Event.m_domain_new lib etc "Launcher.exe" ::
          assemblyLoadOrder.map Event.m_load_assembly ++
          [Event.m_domain_exec h "Launcher.exe" rest,
           Event.m_domain_free h,
           Event.g_option_context_free] := by
  obtain ⟨lib, etc, rest, hr⟩ := exists_ok_of_parseOk hp
  rw [launch_ok h hr]
  refine ⟨?_, lib, etc, rest, rfl⟩
  rfl

theorem loads_in_order_after_domain_new_witness :
    loadCalls (launch 0 []).1 = assemblyLoadOrder ∧
    ∃ lib etc rest,
      (launch 0 []).1 =
        Event.m_domain_new lib etc "Launcher.exe" ::
          assemblyLoadOrder.map Event.m_load_assembly ++
          [Event.m_domain_exec 0 "Launcher.exe" rest,
           Event.m_domain_free 0,
           Event.g_option_context_free] :=
  loads_in_order_after_domain_new 0 [] (by decide)

/-- C2: invoking with `--mono-lib Custom\lib --mono-etc Custom\etc foo bar`
creates the domain with `("Custom\lib", "Custom\etc", "Launcher.exe")` and
executes the entry module with argument vector `["foo", "bar"]`, the two
recognized options having been consumed; the exit status is 0. -/
theorem example_invocation_custom_paths (h : Nat) :
    launch h ["--mono-lib", "Custom\\lib", "--mono-etc", "Custom\\etc", "foo", "bar"] =
      ([Event.m_domain_new "Custom\\lib" "Custom\\etc" "Launcher.exe",
        Event.m_load_assembly "FSharp.Core.dll",
        Event.m_load_assembly "FQuake3.Utils.dll",
        Event.m_load_assembly "Engine.dll",
        Event.m_load_assembly "Engine.Renderer.dll",
        Event.m_load_assembly "CGame.dll",
        Event.m_domain_exec h "Launcher.exe" ["foo", "bar"],
        Event.m_domain_free h,
        Event.g_option_context_free], 0) := rfl

/-- C3: the exit status is 0 when option parsing succeeds and 1 exactly when it
fails (no other status is possible), and on failure the text printed to
standard output contains "Invalid option". -/
theorem exit_status_and_error_message (h : Nat) (args : List String) :
    (launch h args).2 = (if parseOk args then 0 else 1) ∧
    (parseOk args = false → containsText (printed (launch h args).1) "Invalid option") := by
  cases hp : parseResult args with
  | ok r =>
    obtain ⟨lib, etc, rest⟩ := r
    rw [launch_ok h hp, parseOk_of_ok hp]
    refine ⟨rfl, ?_⟩
    intro hfalse
    cases hfalse
  | error m =>
    rw [launch_error hp h, parseOk_of_error hp]
    refine ⟨rfl, fun _ => ⟨[], (": " ++ m ++ "\n").data, ?_⟩⟩
    show ("Invalid option: " ++ m ++ "\n").data = _
    have hsplit : "Invalid option: " = "Invalid option" ++ ": " := rfl
    simp [printed, hsplit, String.data_append, List.append_assoc]

theorem exit_status_and_error_message_witness :
    containsText (printed (launch 0 ["--bogus"]).1) "Invalid option" :=
  (exit_status_and_error_message 0 ["--bogus"]).2 (by decide)

/-- C6: a trace contains exactly one `m_domain_free` call and one
`m_domain_new` call when option parsing succeeds, and zero of each when it
fails: the domain is released exactly once on every path that reaches
execution, and never created (hence never released) on the parse-failure
path. -/
theorem domain_created_and_freed_balanced (h : Nat) (args : List String) :
    ((launch h args).1.countP isDomainFree, (launch h args).1.countP isDomainNew) =
      (if parseOk args then (1, 1) else (0, 0)) := by
  cases hp : parseResult args with
  | ok r =>
    obtain ⟨lib, etc, rest⟩ := r
    rw [launch_ok h hp, parseOk_of_ok hp]
    rfl
  | error m =>
    rw [launch_error hp h, parseOk_of_error hp]
    rfl

/-- C7: on the successful-parse path the domain is released first, then the
option context, and only then does the process return status 0: the trace ends
with `m_domain_free` followed by `g_option_context_free`. -/
theorem release_order_then_exit_zero (h : Nat) (args : List String)
    (hp : parseOk args = true) :
    (∃ front, (launch h args).1 =
        front ++ [Event.m_domain_free h, Event.g_option_context_free]) ∧
    (launch h args).2 = 0 := by
  obtain ⟨lib, etc, rest, hr⟩ := exists_ok_of_parseOk hp
  rw [launch_ok h hr]
  exact ⟨⟨[Event.m_domain_new lib etc "Launcher.exe",
            Event.m_load_assembly "FSharp.Core.dll",
            Event.m_load_assembly "FQuake3.Utils.dll",
            Event.m_load_assembly "Engine.dll",
            Event.m_load_assembly "Engine.Renderer.dll",
            Event.m_load_assembly "CGame.dll",
            Event.m_domain_exec h "Launcher.exe" rest], rfl⟩, rfl⟩

theorem release_order_then_exit_zero_witness :
    (∃ front, (launch 0 []).1 =
        front ++ [Event.m_domain_free 0, Event.g_option_context_free]) ∧
    (launch 0 []).2 = 0 :=
  release_order_then_exit_zero 0 [] (by decide)

/-- C8: the option-parsing context is released exactly once on the path that
reaches domain execution and never on the parse-failure path. -/
theorem option_context_freed_only_on_success (h : Nat) (args : List String) :
    (launch h args).1.countP isCtxFree = (if parseOk args then 1 else 0) := by
  cases hp : parseResult args with
  | ok r =>
    obtain ⟨lib, etc, rest⟩ := r
    rw [launch_ok h hp, parseOk_of_ok hp]
    rfl
  | error m =>
    rw [launch_error hp h, parseOk_of_error hp]
    rfl

/-- C9: on every successful-parse path the five loads, the entry execution and
the domain release are performed unconditionally, in a fixed straight-line
sequence, with whatever handle domain creation returned (the handle `h` is
passed through unexamined to `m_domain_exec` and `m_domain_free`). -/
theorem success_path_unconditional_calls (h : Nat) (args : List String)
    {lib etc rest} (hp : parseResult args = .ok (lib, etc, rest)) :
    (launch h args).1 =
      [Event.m_domain_new lib etc "Launcher.exe",
       Event.m_load_assembly "FSharp.Core.dll",
       Event.m_load_assembly "FQuake3.Utils.dll",
       Event.m_load_assembly "Engine.dll",
       Event.m_load_assembly "Engine.Renderer.dll",
       Event.m_load_assembly "CGame.dll",
       Event.m_domain_exec h "Launcher.exe" rest,
       Event.m_domain_free h,
       Event.g_option_context_free] := by
  rw [launch_ok h hp]

theorem success_path_unconditional_calls_witness :
    (launch 0 []).1 =
      [Event.m_domain_new mono_lib mono_etc "Launcher.exe",
       Event.m_load_assembly "FSharp.Core.dll",
       Event.m_load_assembly "FQuake3.Utils.dll",
       Event.m_load_assembly "Engine.dll",
       Event.m_load_assembly "Engine.Renderer.dll",
       Event.m_load_assembly "CGame.dll",
       Event.m_domain_exec 0 "Launcher.exe" [],
       Event.m_domain_free 0,
       Event.g_option_context_free] :=
  success_path_unconditional_calls 0 [] rfl

/-- C10: the launcher is deterministic: two runs with identical argument
vectors (and the same environment-returned domain handle) produce identical
call traces, identical printed text and identical exit status. -/
theorem launcher_deterministic (h : Nat) (args : List String)
    (r1 r2 : List Event × Nat)
    (h1 : r1 = launch h args) (h2 : r2 = launch h args) : r1 = r2 :=
  h1.trans h2.symm

theorem launcher_deterministic_witness :
    launch 0 ["foo"] = launch 0 ["foo"] :=
  launcher_deterministic 0 ["foo"] (launch 0 ["foo"]) (launch 0 ["foo"]) rfl rfl

theorem parseOptions_nil (l e : String) : parseOptions [] l e = .ok (l, e, []) := rfl

theorem parseOptions_cons_libEq {a v : String} (h : matchOpt "--mono-lib=" a = some v)
    (rest : List String) (l e : String) :
    parseOptions (a :: rest) l e = parseOptions rest v e := by
  rw [parseOptions.eq_def]
  simp [h]

theorem parseOptions_cons_etcEq {a v : String}
    (h1 : matchOpt "--mono-lib=" a = none) (h2 : matchOpt "--mono-etc=" a = some v)
    (rest : List String) (l e : String) :
    parseOptions (a :: rest) l e = parseOptions rest l v := by
  rw [parseOptions.eq_def]
  simp [h1, h2]

theorem parseOptions_cons_lib (rest : List String) (l e : String) :
    parseOptions ("--mono-lib" :: rest) l e =
      match rest with
      | [] => .error "Missing argument for --mono-lib"
      | v :: rest2 => parseOptions rest2 v e := by
  rw [parseOptions.eq_def]
  rfl

theorem parseOptions_cons_etc (rest : List String) (l e : String) :
    parseOptions ("--mono-etc" :: rest) l e =
      match rest with
      | [] => .error "Missing argument for --mono-etc"
      | v :: rest2 => parseOptions rest2 l v := by
  rw [parseOptions.eq_def]
  rfl

theorem parseOptions_cons_dash {a : String}
    (h1 : matchOpt "--mono-lib=" a = none) (h2 : matchOpt "--mono-etc=" a = none)
    (h3 : a ≠ "--mono-lib") (h4 : a ≠ "--mono-etc") (h5 : isDashOpt a = true)
    (rest : List String) (l e : String) :
    parseOptions (a :: rest) l e = .error ("Unknown option " ++ a) := by
  rw [parseOptions.eq_def]
  simp [h1, h2, h3, h4, h5]

theorem parseOptions_cons_pos {a : String}
    (h1 : matchOpt "--mono-lib=" a = none) (h2 : matchOpt "--mono-etc=" a = none)
    (h3 : a ≠ "--mono-lib") (h4 : a ≠ "--mono-etc") (h5 : isDashOpt a = false)
    (rest : List String) (l e : String) :
    parseOptions (a :: rest) l e =
      (parseOptions rest l e).map fun r => (r.1, r.2.1, a :: r.2.2) := by
  rw [parseOptions.eq_def]
  simp [h1, h2, h3, h4, h5]

theorem splitChars_append (ps bs : List Char) : splitChars ps (ps ++ bs) = some bs := by
  induction ps with
  | nil => rfl
  | cons p ps ih => simp [splitChars, ih]

theorem matchOpt_append (p s : String) : matchOpt p (p ++ s) = some s := by
  show (splitChars p.data (p ++ s).data).map String.mk = some s
  rw [String.data_append, splitChars_append]
  rfl

theorem getLast?_tail_ne {α : Type} [DecidableEq α] {a : α} {pre : List α} {s : α}
    (h : (a :: pre).getLast? ≠ some s) : pre.getLast? ≠ some s := by
  cases pre with
  | nil => simp
  | cons b pre' =>
    rw [List.getLast?_cons_cons] at h
    exact h

theorem parse_keeps_defaults :
    ∀ (args : List String) (l e lib etc : String) (rest : List String),
      (∀ a ∈ args, setsMonoLib a = false) →
      (∀ a ∈ args, setsMonoEtc a = false) →
      parseOptions args l e = .ok (lib, etc, rest) →
      lib = l ∧ etc = e := by
  intro args
  induction args with
  | nil =>
    intro l e lib etc rest _ _ hp
    rw [parseOptions_nil] at hp
    cases hp
    exact ⟨rfl, rfl⟩
  | cons a rest' ih =>
    intro l e lib etc rest h1 h2 hp
    have ha1 : setsMonoLib a = false := h1 a (List.mem_cons_self a rest')
    have ha2 : setsMonoEtc a = false := h2 a (List.mem_cons_self a rest')
    cases hm1 : matchOpt "--mono-lib=" a with
    | some v => simp [setsMonoLib, hm1] at ha1
    | none =>
      cases hm2 : matchOpt "--mono-etc=" a with
      | some v => simp [setsMonoEtc, hm2] at ha2
      | none =>
        have hne1 : a ≠ "--mono-lib" := by
          intro hh
          rw [hh] at ha1
          simp [setsMonoLib] at ha1
        have hne2 : a ≠ "--mono-etc" := by
          intro hh
          rw [hh] at ha2
          simp [setsMonoEtc] at ha2
        cases hd : isDashOpt a with
        | true =>
          rw [parseOptions_cons_dash hm1 hm2 hne1 hne2 hd] at hp
          cases hp
        | false =>
          rw [parseOptions_cons_pos hm1 hm2 hne1 hne2 hd] at hp
          cases hq : parseOptions rest' l e with
          | error m => simp [hq, Except.map] at hp
          | ok r2 =>
            obtain ⟨lib2, etc2, pos2⟩ := r2
            rw [hq] at hp
            simp only [Except.map, Except.ok.injEq, Prod.mk.injEq] at hp
            obtain ⟨hl, he, -⟩ := hp
            have := ih l e lib2 etc2 pos2
              (fun x hx => h1 x (List.mem_cons_of_mem a hx))
              (fun x hx => h2 x (List.mem_cons_of_mem a hx)) hq
            exact ⟨hl ▸ this.1, he ▸ this.2⟩

/-- C4: for every valid invocation supplying neither recognized option, the
domain is configured with lib-path `Mono\lib` and etc-path `Mono\etc`. -/
theorem default_paths_when_no_options (h : Nat) (args : List String)
    (h1 : ∀ a ∈ args, setsMonoLib a = false)
    (h2 : ∀ a ∈ args, setsMonoEtc a = false)
    (hp : parseOk args = true) :
    ∃ tail, (launch h args).1 =
      Event.m_domain_new "Mono\\lib" "Mono\\etc" "Launcher.exe" :: tail := by
  obtain ⟨lib, etc, rest, hr⟩ := exists_ok_of_parseOk hp
  obtain ⟨hl, he⟩ := parse_keeps_defaults args mono_lib mono_etc lib etc rest h1 h2 hr
  rw [launch_ok h hr, hl, he]
  exact ⟨_, rfl⟩

theorem default_paths_when_no_options_witness :
    ∃ tail, (launch 0 ["foo", "bar"]).1 =
      Event.m_domain_new "Mono\\lib" "Mono\\etc" "Launcher.exe" :: tail :=
  default_paths_when_no_options 0 ["foo", "bar"] (by decide) (by decide) (by decide)

theorem parse_keeps_lib :
    ∀ (n : Nat) (args : List String) (l e lib etc : String) (rest : List String),
      args.length ≤ n →
      (∀ a ∈ args, setsMonoLib a = false) →
      parseOptions args l e = .ok (lib, etc, rest) →
      lib = l := by
  intro n
  induction n with
  | zero =>
    intro args l e lib etc rest hlen _ hp
    have hnil : args = [] := List.eq_nil_of_length_eq_zero (Nat.le_zero.mp hlen)
    subst hnil
    rw [parseOptions_nil] at hp
    cases hp
    rfl
  | succ n ih =>
    intro args l e lib etc rest hlen h1 hp
    cases args with
    | nil =>
      rw [parseOptions_nil] at hp
      cases hp
      rfl
    | cons a rest' =>
      have ha1 : setsMonoLib a = false := h1 a (List.mem_cons_self a rest')
      have hlen' : rest'.length ≤ n := by
        simp only [List.length_cons] at hlen
        omega
      cases hm1 : matchOpt "--mono-lib=" a with
      | some v => simp [setsMonoLib, hm1] at ha1
      | none =>
        cases hm2 : matchOpt "--mono-etc=" a with
        | some v =>
          rw [parseOptions_cons_etcEq hm1 hm2] at hp
          exact ih rest' l v lib etc rest hlen'
            (fun x hx => h1 x (List.mem_cons_of_mem a hx)) hp
        | none =>
          have hne1 : a ≠ "--mono-lib" := by
            intro hh
            rw [hh] at ha1
            simp [setsMonoLib] at ha1
          by_cases hae : a = "--mono-etc"
          · subst hae
            rw [parseOptions_cons_etc] at hp
            cases rest' with
            | nil => cases hp
            | cons b rest'' =>
              have hlen'' : rest''.length ≤ n := by
                simp only [List.length_cons] at hlen
                omega
              exact ih rest'' l b lib etc rest hlen''
                (fun x hx => h1 x (List.mem_cons_of_mem _ (List.mem_cons_of_mem _ hx))) hp
          · cases hd : isDashOpt a with
            | true =>
              rw [parseOptions_cons_dash hm1 hm2 hne1 hae hd] at hp
              cases hp
            | false =>
              rw [parseOptions_cons_pos hm1 hm2 hne1 hae hd] at hp
              cases hq : parseOptions rest' l e with
              | error m => simp [hq, Except.map] at hp
              | ok r2 =>
                obtain ⟨lib2, etc2, pos2⟩ := r2
                rw [hq] at hp
                simp only [Except.map, Except.ok.injEq, Prod.mk.injEq] at hp
                obtain ⟨hl, -, -⟩ := hp
                have := ih rest' l e lib2 etc2 pos2 hlen'
                  (fun x hx => h1 x (List.mem_cons_of_mem a hx)) hq
                exact hl ▸ this

theorem parse_last_lib (X : String) (post : List String)
    (hpost : ∀ a ∈ post, setsMonoLib a = false) :
    ∀ (n : Nat) (pre : List String) (l e lib etc : String) (rest : List String),
      pre.length ≤ n →
      pre.getLast? ≠ some "--mono-lib" →
      pre.getLast? ≠ some "--mono-etc" →
      parseOptions (pre ++ ("--mono-lib=" ++ X) :: post) l e = .ok (lib, etc, rest) →
      lib = X := by
  intro n
  induction n with
  | zero =>
    intro pre l e lib etc rest hlen _ _ hp
    have hnil : pre = [] := List.eq_nil_of_length_eq_zero (Nat.le_zero.mp hlen)
    subst hnil
    rw [List.nil_append, parseOptions_cons_libEq (matchOpt_append "--mono-lib=" X)] at hp
    exact parse_keeps_lib post.length post X e lib etc rest (Nat.le_refl _) hpost hp
  | succ n ih =>
    intro pre l e lib etc rest hlen hL hE hp
    cases pre with
    | nil =>
      rw [List.nil_append, parseOptions_cons_libEq (matchOpt_append "--mono-lib=" X)] at hp
      exact parse_keeps_lib post.length post X e lib etc rest (Nat.le_refl _) hpost hp
    | cons a pre' =>
      rw [List.cons_append] at hp
      have hlen' : pre'.length ≤ n := by
        simp only [List.length_cons] at hlen
        omega
      cases hm1 : matchOpt "--mono-lib=" a with
      | some v =>
        rw [parseOptions_cons_libEq hm1] at hp
        exact ih pre' v e lib etc rest hlen' (getLast?_tail_ne hL) (getLast?_tail_ne hE) hp
      | none =>
        cases hm2 : matchOpt "--mono-etc=" a with
        | some v =>
          rw [parseOptions_cons_etcEq hm1 hm2] at hp
          exact ih pre' l v lib etc rest hlen' (getLast?_tail_ne hL) (getLast?_tail_ne hE) hp
        | none =>
          by_cases hal : a = "--mono-lib"
          · subst hal
            cases pre' with
            | nil => exact absurd (by simp) hL
            | cons b pre'' =>
              rw [parseOptions_cons_lib, List.cons_append] at hp
              have hlen'' : pre''.length ≤ n := by
                simp only [List.length_cons] at hlen
                omega
              exact ih pre'' b e lib etc rest hlen''
                (getLast?_tail_ne (getLast?_tail_ne hL))
                (getLast?_tail_ne (getLast?_tail_ne hE)) hp
          · by_cases hae : a = "--mono-etc"
            · subst hae
              cases pre' with
              | nil => exact absurd (by simp) hE
              | cons b pre'' =>
                rw [parseOptions_cons_etc, List.cons_append] at hp
                have hlen'' : pre''.length ≤ n := by
                  simp only [List.length_cons] at hlen
                  omega
                exact ih pre'' l b lib etc rest hlen''
                  (getLast?_tail_ne (getLast?_tail_ne hL))
                  (getLast?_tail_ne (getLast?_tail_ne hE)) hp
            · cases hd : isDashOpt a with
              | true =>
                rw [parseOptions_cons_dash hm1 hm2 hal hae hd] at hp
                cases hp
              | false =>
                rw [parseOptions_cons_pos hm1 hm2 hal hae hd] at hp
                cases hq : parseOptions (pre' ++ ("--mono-lib=" ++ X) :: post) l e with
                | error m => simp [hq, Except.map] at hp
                | ok r2 =>
                  obtain ⟨lib2, etc2, pos2⟩ := r2
                  rw [hq] at hp
                  simp only [Except.map, Except.ok.injEq, Prod.mk.injEq] at hp
                  obtain ⟨hl, -, -⟩ := hp
                  have := ih pre' l e lib2 etc2 pos2 hlen'
                    (getLast?_tail_ne hL) (getLast?_tail_ne hE) hq
                  exact hl ▸ this

/-- C5: for every invocation supplying `--mono-lib=X` as a genuine option
occurrence (the preceding argument, if any, is not itself an option expecting a
value) with no later argument setting `mono-lib` again, the domain is
configured with lib-path exactly `X`, regardless of which other options are
supplied. -/
theorem mono_lib_option_sets_lib_path (h : Nat) (pre post : List String) (X : String)
    (hpre1 : pre.getLast? ≠ some "--mono-lib")
    (hpre2 : pre.getLast? ≠ some "--mono-etc")
    (hpost : ∀ a ∈ post, setsMonoLib a = false)
    (hp : parseOk (pre ++ ("--mono-lib=" ++ X) :: post) = true) :
    ∃ etc tail,
      (launch h (pre ++ ("--mono-lib=" ++ X) :: post)).1 =
        Event.m_domain_new X etc "Launcher.exe" :: tail := by
  obtain ⟨lib, etc, rest, hr⟩ := exists_ok_of_parseOk hp
  have hX := parse_last_lib X post hpost pre.length pre mono_lib mono_etc lib etc rest
    (Nat.le_refl _) hpre1 hpre2 hr
  rw [launch_ok h hr, hX]
  exact ⟨etc, _, rfl⟩

theorem mono_lib_option_sets_lib_path_witness :
    ∃ etc tail,
      (launch 0 (["--mono-etc", "Custom\\etc"] ++
          ("--mono-lib=" ++ "Custom\\lib") :: ["foo"])).1 =
        Event.m_domain_new "Custom\\lib" etc "Launcher.exe" :: tail :=
  mono_lib_option_sets_lib_path 0 ["--mono-etc", "Custom\\etc"] ["foo"] "Custom\\lib"
    (by decide) (by decide) (by decide) (by decide)

end FQuake3
